import Mathlib

/-!
Shallow embedding of the expense-tracker service (src/index.js): an Express
application over MongoDB with bcrypt password hashing and JWT bearer tokens.

Modelling decisions, stated once here:
* MongoDB ObjectIds are modelled as `Nat`; a collection is a `List` of records
  in insertion (natural) order, with the fresh-id counter carried alongside.
* JSON values stored in the `amount` field may be numbers or strings (the
  handlers insert `req.body.amount` as-is), so amounts are a sum type `JVal`.
* bcryptjs is modelled by its interface contract: `bcrypt.compare p h` succeeds
  exactly when `p` is the password from which `h` was produced.
* jsonwebtoken is modelled by its interface contract: a token records its
  payload and the secret used to sign it; `verify` succeeds iff the secret
  matches and the current time is before `exp` (jsonwebtoken reports
  `TokenExpiredError` when `now >= exp`); `sign` with `expiresIn: '1h'` sets
  `iat = now` and `exp = now + 3600`.
* express-validator converts a field to its string form before running a
  validator.js check; `isFloat` is therefore modelled directly on the stored
  value: a number passes iff it is `> 0`, a string iff it parses as a plain
  decimal float `> 0` (exponent forms, admitted by the library, are not
  exercised by any claim and are omitted).  `isISO8601` (called without the
  `strict` option) is a format-only check; it is modelled on the calendar-date
  production `YYYY-MM-DD` with month 01-12 and day 01-31, without validating
  the day against the month length — exactly the non-strict library behaviour
  on such strings (other ISO-8601 productions the library also admits are not
  exercised by any claim).
* MongoDB `find(...).sort({date: -1})` guarantees only that the result is the
  matching documents in some order that is non-increasing on `date`; the
  relative order of documents with equal `date` is unspecified.  The sort is
  therefore modelled as the relation `IsListResult`.  Where the HTTP-level
  model needs one concrete response body, it uses one admissible
  linearization (`sortByDateDesc`).
* MongoDB `updateOne` reports `modifiedCount`, which counts documents actually
  changed: a matched document whose fields already equal the `$set` values
  contributes 0.
-/

/-- A JSON scalar as stored in the `amount` field: the handlers pass
`req.body.amount` straight to `insertOne`, so it may be a number or a string. -/
inductive JVal where
  | num (q : ℚ)
  | str (s : String)
deriving DecidableEq, Repr

/-- A document of the `expenses` collection:
`{_id, user_id, type, amount, description, date}` (src/index.js:124-130). -/
structure Entry where
  _id : Nat
  user_id : Nat
  type : String
  amount : JVal
  description : String
  date : String
deriving DecidableEq, Repr

/-- The request body of POST /expense and PUT /expense/:id. -/
structure EntryReq where
  type : String
  amount : JVal
  description : String
  date : String
deriving DecidableEq, Repr

/-- An opaque bcrypt digest: the wrapper records the password it was produced
from, so that `bcryptCompare` can realise the bcryptjs contract. -/
structure BHash where
  pw : String
deriving DecidableEq, Repr

/-- A document of the `users` collection: `{_id, username, password}` where
`password` holds the bcrypt hash (src/index.js:79). -/
structure User where
  _id : Nat
  username : String
  password : BHash
deriving DecidableEq, Repr

/-- Models `bcrypt.hash(password, 10)` (src/index.js:78). -/
def bcryptHash (password : String) : BHash := ⟨password⟩

/-- Models `bcrypt.compare(password, hash)` (src/index.js:100): succeeds exactly
on the password the hash was produced from. -/
def bcryptCompare (password : String) (h : BHash) : Bool :=
  password == h.pw

/-- The JWT payload: `jwt.sign({user_id, username}, ..., {expiresIn: '1h'})`
(src/index.js:104); jsonwebtoken adds `iat` and `exp = iat + 3600`. -/
structure Claims where
  user_id : Nat
  username : String
  iat : Nat
  exp : Nat
deriving DecidableEq, Repr

/-- A signed token: payload plus the secret it was signed with (idealised MAC:
verification succeeds exactly under the signing secret). -/
structure Token where
  payload : Claims
  sig : String
deriving DecidableEq, Repr

/-- The process-wide secret (src/index.js:13, default value). -/
def JWT_SECRET : String := "yourSecretKey"

/-- Models `jwt.sign({user_id, username}, secret, {expiresIn: '1h'})` at time
`now` (seconds): `iat = now`, `exp = now + 3600` (src/index.js:104). -/
def signToken (secret : String) (uid : Nat) (uname : String) (now : Nat) : Token :=
  ⟨⟨uid, uname, now, now + 3600⟩, secret⟩

/-- Models `jwt.verify(token, secret, cb)` at time `now` (src/index.js:52):
fails on a wrong secret (signature mismatch) or when `now ≥ exp`
(jsonwebtoken's TokenExpiredError); otherwise yields the payload. -/
def verifyToken (secret : String) (t : Token) (now : Nat) : Except String Claims :=
  if t.sig ≠ secret then .error "invalid signature"
  else if t.payload.exp ≤ now then .error "jwt expired"
  else .ok t.payload

/-- Models `db.collection('users').findOne({username})` (src/index.js:97):
first document with the given username, in natural order. -/
def findOneUser (users : List User) (uname : String) : Option User :=
  users.find? (fun u => u.username == uname)

/-- A decimal-digit string to its value. -/
def digitsToNat (ds : List Char) : Nat :=
  ds.foldl (fun n c => 10 * n + (c.toNat - 48)) 0

/-- Models validator.js `isFloat` string parsing restricted to plain decimal
forms `[+-]?digits[.digits]` / `[+-]?.digits`: the parsed literal as a scaled
integer — mantissa `m` and fraction-digit count `d`, denoting the value
`m / 10^d` (see `floatVal`) — or `none` when the string is not a float
literal. -/
def parseFloat (s : String) : Option (Int × Nat) :=
  let cs := s.toList
  let sgn : Int := if cs.head? = some '-' then -1 else 1
  let cs1 := if cs.head? = some '-' ∨ cs.head? = some '+' then cs.tail else cs
  let ipart := cs1.takeWhile Char.isDigit
  let rest := cs1.dropWhile Char.isDigit
  match rest with
  | [] =>
    if ipart.isEmpty then none
    else some (sgn * (digitsToNat ipart : Int), 0)
  | '.' :: fpart =>
    if fpart.all Char.isDigit && !(ipart.isEmpty && fpart.isEmpty) then
      some (sgn * ((digitsToNat ipart * 10 ^ fpart.length + digitsToNat fpart : Nat) : Int),
        fpart.length)
    else none
  | _ => none

/-- The rational value a parsed float literal denotes. -/
def floatVal (p : Int × Nat) : ℚ :=
  (p.1 : ℚ) / 10 ^ p.2

/-- Models `body('amount').isFloat({gt: 0})` (src/index.js:114): a number
passes iff `> 0`; a string passes iff it parses as a float whose value is
`> 0` (express-validator stringifies the field before the check, so a JSON
number behaves as its decimal rendering).  The value's positivity is tested
on the mantissa; `floatVal_pos` shows the two tests agree. -/
def isFloatGt0 (a : JVal) : Bool :=
  match a with
  | .num q => decide (0 < q)
  | .str s =>
    match parseFloat s with
    | some p => decide (0 < p.1)
    | none => false

/-- Models `body('type').isIn(['expense', 'income'])` (src/index.js:113). -/
def isInTypes (t : String) : Bool :=
  t == "expense" || t == "income"

/-- Models `body('date').isISO8601()` (src/index.js:115), non-strict, on the
calendar-date production: `YYYY-MM-DD`, month 01-12, day 01-31.  Non-strict
mode does not check the day against the month length (2025-02-31 passes). -/
def isISO8601 (s : String) : Bool :=
  match s.toList with
  | [y1, y2, y3, y4, '-', m1, m2, '-', d1, d2] =>
    (y1.isDigit && y2.isDigit && y3.isDigit && y4.isDigit) &&
    ((m1 == '0' && '1' ≤ m2 && m2 ≤ '9') || (m1 == '1' && (m2 == '0' || m2 == '1' || m2 == '2'))) &&
    ((d1 == '0' && '1' ≤ d2 && d2 ≤ '9') || ((d1 == '1' || d1 == '2') && d2.isDigit) ||
      (d1 == '3' && (d2 == '0' || d2 == '1')))
  | _ => false

/-- The four validation failures of the POST/PUT expense chains
(src/index.js:113-116); the handlers surface them as a list of messages. -/
inductive VErr where
  | typeErr
  | amountErr
  | dateErr
  | descErr
deriving DecidableEq, Repr

/-- The validator chain of POST /expense and PUT /expense/:id
(src/index.js:113-116, 152-155): all failing checks, in chain order. -/
def validateEntry (r : EntryReq) : List VErr :=
  (if isInTypes r.type then [] else [VErr.typeErr]) ++
  (if isFloatGt0 r.amount then [] else [VErr.amountErr]) ++
  (if isISO8601 r.date then [] else [VErr.dateErr]) ++
  (if r.description ≠ "" then [] else [VErr.descErr])

/-- The `expenses` collection with MongoDB's fresh-id source. -/
structure ExpensesDB where
  entries : List Entry
  nextId : Nat
deriving DecidableEq, Repr

/-- Models the POST /expense handler after authentication
(src/index.js:117-135): run the validator chain; on success `insertOne` the
body bound to the owner and return the inserted id. -/
def create (db : ExpensesDB) (owner : Nat) (r : EntryReq) :
    Except (List VErr) (ExpensesDB × Nat) :=
  match validateEntry r with
  | [] =>
    .ok (⟨db.entries ++ [⟨db.nextId, owner, r.type, r.amount, r.description, r.date⟩],
          db.nextId + 1⟩, db.nextId)
  | errs => .error errs

/-- Models the filter `{user_id: ownerId}` of `find` and `$match`
(src/index.js:141, 189). -/
def findExpenses (entries : List Entry) (owner : Nat) : List Entry :=
  entries.filter (fun e => e.user_id == owner)

/-- Models `find({user_id}).sort({date: -1})` (src/index.js:140-143) as a
relation: MongoDB guarantees the result is the matching documents in some
order non-increasing on `date`; the relative order of equal dates is
unspecified, so any such permutation is an admissible result. -/
def IsListResult (entries : List Entry) (owner : Nat) (out : List Entry) : Prop :=
  out.Perm (findExpenses entries owner) ∧
  out.Chain' (fun a b => b.date ≤ a.date)

/-- One admissible linearization of the sort (insertion sort, non-increasing
on `date`), used where the HTTP-level model must produce one concrete body. -/
def insertByDate (e : Entry) : List Entry → List Entry
  | [] => [e]
  | x :: xs => if x.date ≤ e.date then e :: x :: xs else x :: insertByDate e xs

/-- See `insertByDate`. -/
def sortByDateDesc : List Entry → List Entry
  | [] => []
  | x :: xs => insertByDate x (sortByDateDesc xs)

/-- The `$set` document of PUT /expense/:id equals the stored fields
(MongoDB then reports `modifiedCount = 0` for that document). -/
def fieldsEq (e : Entry) (r : EntryReq) : Bool :=
  e.type == r.type && e.amount == r.amount && e.description == r.description && e.date == r.date

/-- Models `updateOne({_id, user_id}, {$set: {...}})` (src/index.js:163-166):
update the first document matching both the entry id and the owner; the
returned count is `modifiedCount`, which is 0 when nothing matched and also
when the matched document already carries the `$set` values. -/
def updateOne (entries : List Entry) (id owner : Nat) (r : EntryReq) : List Entry × Nat :=
  match entries with
  | [] => ([], 0)
  | e :: rest =>
    if e._id = id ∧ e.user_id = owner then
      if fieldsEq e r then (e :: rest, 0)
      else (⟨e._id, e.user_id, r.type, r.amount, r.description, r.date⟩ :: rest, 1)
    else
      let p := updateOne rest id owner r
      (e :: p.1, p.2)

/-- Models `deleteOne({_id, user_id})` (src/index.js:176-178): remove the
first document matching both the entry id and the owner, reporting
`deletedCount`. -/
def deleteOne (entries : List Entry) (id owner : Nat) : List Entry × Nat :=
  match entries with
  | [] => ([], 0)
  | e :: rest =>
    if e._id = id ∧ e.user_id = owner then (rest, 1)
    else
      let p := deleteOne rest id owner
      (e :: p.1, p.2)

/-- Models `$substr: ['$date', 0, 7]` (src/index.js:192).  `$substr` is
byte-based; dates are ASCII, where bytes and characters coincide. -/
def monthKey (e : Entry) : String :=
  e.date.take 7

/-- The numeric value `$sum` accumulates for a field: MongoDB's `$sum` ignores
non-numeric values, so a string contributes nothing. -/
def numAmount (a : JVal) : ℚ :=
  match a with
  | .num q => q
  | .str _ => 0

/-- The `$cond` contribution of one document to `total_income`
(src/index.js:193-195). -/
def incomeContrib (e : Entry) : ℚ :=
  if e.type == "income" then numAmount e.amount else 0

/-- The `$cond` contribution of one document to `total_expense`
(src/index.js:196-198). -/
def expenseContrib (e : Entry) : ℚ :=
  if e.type == "expense" then numAmount e.amount else 0

/-- One output document of the `$group` stage (src/index.js:191-200). -/
structure Bucket where
  _id : String
  total_income : ℚ
  total_expense : ℚ
deriving DecidableEq, Repr

/-- The distinct group keys of a list of documents (output order of `$group`
is unspecified; no claim depends on it). -/
def keysOf (l : List Entry) : List String :=
  (l.map monthKey).dedup

/-- The `$group` accumulator output for one key. -/
def mkBucket (l : List Entry) (k : String) : Bucket :=
  ⟨k, ((l.filter (fun e => monthKey e == k)).map incomeContrib).sum,
      ((l.filter (fun e => monthKey e == k)).map expenseContrib).sum⟩

/-- Models the GET /summary aggregation (src/index.js:188-201): `$match` on
the owner, `$group` by the first 7 characters of `date`, summing the `$cond`
contributions into `total_income` and `total_expense`. -/
def summarize (entries : List Entry) (owner : Nat) : List Bucket :=
  let mine := findExpenses entries owner
  (keysOf mine).map (mkBucket mine)

/-- The outcome of POST /login (src/index.js:87-109): either 200 `{token}` or
an error status with its message. -/
inductive LoginRes where
  | ok (t : Token)
  | err (status : Nat) (msg : String)
deriving DecidableEq, Repr

/-- Models the POST /login handler at time `now` (src/index.js:87-109):
`notEmpty` validators on username and password, then `findOne({username})`,
401 "User not found" when absent, `bcrypt.compare` against the stored hash,
401 "Invalid password" on mismatch, else a signed 1-hour token. -/
def login (users : List User) (uname pw : String) (now : Nat) : LoginRes :=
  if uname = "" ∨ pw = "" then .err 400 "validation"
  else
    match findOneUser users uname with
    | none => .err 401 "User not found"
    | some u =>
      if bcryptCompare pw u.password then
        .ok (signToken JWT_SECRET u._id uname now)
      else .err 401 "Invalid password"

/-- The `users` collection with MongoDB's fresh-id source. -/
structure UsersDB where
  users : List User
  nextId : Nat
deriving DecidableEq, Repr

/-- The whole service state: the readiness flag set by `startServer`
(src/index.js:20, 27) and the two collections. -/
structure AppState where
  isDbReady : Bool
  usersDb : UsersDB
  expensesDb : ExpensesDB
deriving DecidableEq, Repr

/-- One HTTP request to the service.  `auth` is the token carried by the
`Authorization: Bearer` header, when any. -/
inductive Req where
  | register (username password : String)
  | login (username password : String)
  | postExpense (auth : Option Token) (body : EntryReq)
  | getExpenses (auth : Option Token)
  | putExpense (auth : Option Token) (id : Nat) (body : EntryReq)
  | delExpense (auth : Option Token) (id : Nat)
  | getSummary (auth : Option Token)

/-- A response body (the JSON shapes the handlers produce). -/
inductive RespBody where
  | errMsg (s : String)
  | errList (l : List VErr)
  | regOk (id : Nat) (username : String)
  | tokenVal (t : Token)
  | idVal (n : Nat)
  | entries (l : List Entry)
  | updated (n : Nat)
  | deleted (n : Nat)
  | buckets (l : List Bucket)

/-- An HTTP response: status code and JSON body. -/
structure Resp where
  status : Nat
  body : RespBody

/-- Models `authenticateToken` (src/index.js:47-57): 401 "No token provided"
without a token, 403 "Invalid token" when `jwt.verify` fails, otherwise the
decoded payload becomes `req.user`. -/
def authenticateToken (auth : Option Token) (now : Nat) : Except Resp Claims :=
  match auth with
  | none => .error ⟨401, .errMsg "No token provided"⟩
  | some t =>
    match verifyToken JWT_SECRET t now with
    | .error _ => .error ⟨403, .errMsg "Invalid token"⟩
    | .ok c => .ok c

/-- The POST /register validator chain (src/index.js:60-65): username
`notEmpty` and `isLength({min: 4})`, password `isLength({min: 4})`; `true`
when every check passes. -/
def validRegister (username password : String) : Bool :=
  username ≠ "" && username.length ≥ 4 && password.length ≥ 4

/-- Route dispatch once the readiness gate has passed: each arm models the
corresponding handler of src/index.js (register 60-84, login 87-109, expense
CRUD 112-183, summary 186-206). -/
def dispatch (st : AppState) (now : Nat) : Req → Resp × AppState
  | .register uname pw =>
    if !validRegister uname pw then (⟨400, .errList []⟩, st)
    else
      match findOneUser st.usersDb.users uname with
      | some _ => (⟨400, .errMsg "Username already exists"⟩, st)
      | none =>
        let uid := st.usersDb.nextId
        (⟨200, .regOk uid uname⟩,
         { st with usersDb := ⟨st.usersDb.users ++ [⟨uid, uname, bcryptHash pw⟩], uid + 1⟩ })
  | .login uname pw =>
    match login st.usersDb.users uname pw now with
    | .ok t => (⟨200, .tokenVal t⟩, st)
    | .err s m => (⟨s, .errMsg m⟩, st)
  | .postExpense auth r =>
    match authenticateToken auth now with
    | .error resp => (resp, st)
    | .ok c =>
      match create st.expensesDb c.user_id r with
      | .error errs => (⟨400, .errList errs⟩, st)
      | .ok (db', newId) => (⟨200, .idVal newId⟩, { st with expensesDb := db' })
  | .getExpenses auth =>
    match authenticateToken auth now with
    | .error resp => (resp, st)
    | .ok c =>
      (⟨200, .entries (sortByDateDesc (findExpenses st.expensesDb.entries c.user_id))⟩, st)
  | .putExpense auth id r =>
    match authenticateToken auth now with
    | .error resp => (resp, st)
    | .ok c =>
      match validateEntry r with
      | [] =>
        let p := updateOne st.expensesDb.entries id c.user_id r
        (⟨200, .updated p.2⟩, { st with expensesDb := ⟨p.1, st.expensesDb.nextId⟩ })
      | errs => (⟨400, .errList errs⟩, st)
  | .delExpense auth id =>
    match authenticateToken auth now with
    | .error resp => (resp, st)
    | .ok c =>
      let p := deleteOne st.expensesDb.entries id c.user_id
      (⟨200, .deleted p.2⟩, { st with expensesDb := ⟨p.1, st.expensesDb.nextId⟩ })
  | .getSummary auth =>
    match authenticateToken auth now with
    | .error resp => (resp, st)
    | .ok c => (⟨200, .buckets (summarize st.expensesDb.entries c.user_id)⟩, st)

/-- Models the full request pipeline: the DB-ready middleware
(src/index.js:41-44) runs first on every request — it is registered with
`app.use` before each route, register and login included — and returns 503
`{error: "Database not ready"}` while `isDbReady` is false; otherwise the
route handlers run. -/
def handle (st : AppState) (now : Nat) (req : Req) : Resp × AppState :=
  if !st.isDbReady then (⟨503, .errMsg "Database not ready"⟩, st)
  else dispatch st now req

/-- Day count of a month in the proleptic Gregorian calendar. -/
def daysInMonth (y m : Nat) : Nat :=
  if m = 2 then (if (y % 4 = 0 ∧ y % 100 ≠ 0) ∨ y % 400 = 0 then 29 else 28)
  else if m = 4 ∨ m = 6 ∨ m = 9 ∨ m = 11 then 30 else 31

/-- Modelled from the spec's words — "`date` is a well-formed calendar date"
— for refinement comparison with the code's format-only `isISO8601` check: a
`YYYY-MM-DD` string whose day exists in its month. -/
def wellFormedCalendarDate (s : String) : Bool :=
  match s.toList with
  | [y1, y2, y3, y4, '-', m1, m2, '-', d1, d2] =>
    (y1.isDigit && y2.isDigit && y3.isDigit && y4.isDigit &&
     m1.isDigit && m2.isDigit && d1.isDigit && d2.isDigit) &&
    (decide (1 ≤ digitsToNat [m1, m2] ∧ digitsToNat [m1, m2] ≤ 12 ∧
      1 ≤ digitsToNat [d1, d2] ∧
      digitsToNat [d1, d2] ≤ daysInMonth (digitsToNat [y1, y2, y3, y4]) (digitsToNat [m1, m2])))
  | _ => false

/-- The validity rule C5 claims for create, written from its wording: type in
the enumeration, amount a number greater than 0, date a well-formed calendar
date, description non-empty. -/
def claimValidEntry (r : EntryReq) : Prop :=
  (r.type = "expense" ∨ r.type = "income") ∧
  (∃ q : ℚ, r.amount = .num q ∧ 0 < q) ∧
  wellFormedCalendarDate r.date = true ∧
  r.description ≠ ""

/-- The validity rule the code enforces: as claimed, except that the amount
may also be a string parsing as a positive float, and the date check is the
format-only ISO-8601 test. -/
def amendedValidEntry (r : EntryReq) : Prop :=
  (r.type = "expense" ∨ r.type = "income") ∧
  ((∃ q : ℚ, r.amount = .num q ∧ 0 < q) ∨
   (∃ s p, r.amount = .str s ∧ parseFloat s = some p ∧ 0 < floatVal p)) ∧
  isISO8601 r.date = true ∧
  r.description ≠ ""

/-- Two entries of owner 5 sharing one date, exercising the unspecified tie
order of `sort({date: -1})`. -/
def c6e1 : Entry := ⟨1, 5, "expense", .num 1, "a", "2025-01-05"⟩

/-- See `c6e1`. -/
def c6e2 : Entry := ⟨2, 5, "expense", .num 2, "b", "2025-01-05"⟩

/-- One income entry of owner 1, for the C2 witness. -/
def c2e : Entry := ⟨0, 1, "income", .num 10, "salary", "2025-01-05"⟩

/-- The mantissa positivity test of `isFloatGt0` is exactly the parsed
value's positivity. -/
lemma floatVal_pos (p : Int × Nat) : 0 < floatVal p ↔ 0 < p.1 := by
  rw [floatVal, div_pos_iff]
  have h10 : (0 : ℚ) < 10 ^ p.2 := by positivity
  simp [h10, h10.not_lt, Int.cast_pos]

/-- Rejections of `authenticateToken` carry status 401 (no token) or 403
(failed verification). -/
lemma authenticateToken_error_status (auth : Option Token) (now : Nat) (resp : Resp)
    (h : authenticateToken auth now = .error resp) :
    resp.status = 401 ∨ resp.status = 403 := by
  cases auth with
  | none =>
    simp only [authenticateToken] at h
    cases h
    exact Or.inl rfl
  | some t =>
    cases hv : verifyToken JWT_SECRET t now with
    | error m =>
      simp only [authenticateToken, hv] at h
      cases h
      exact Or.inr rfl
    | ok c =>
      simp only [authenticateToken, hv] at h
      cases h

/-- `login` rejections carry status 400 or 401. -/
lemma login_error_status (users : List User) (uname pw : String) (now : Nat)
    (s : Nat) (m : String) (h : login users uname pw now = .err s m) :
    s = 400 ∨ s = 401 := by
  unfold login at h
  split at h
  · cases h; exact Or.inl rfl
  · split at h
    · cases h; exact Or.inr rfl
    · split at h
      · cases h
      · cases h; exact Or.inr rfl

/-- No route handler produces a 503: once the readiness gate has passed, the
statuses are 200, 400, 401 and 403. -/
lemma dispatch_status_ne_503 (st : AppState) (now : Nat) (req : Req) :
    (dispatch st now req).1.status ≠ 503 := by
  cases req with
  | register uname pw =>
    by_cases hv : validRegister uname pw
    · cases hf : findOneUser st.usersDb.users uname <;> simp [dispatch, hv, hf]
    · simp [dispatch, hv]
  | login uname pw =>
    cases hl : login st.usersDb.users uname pw now with
    | ok t => simp [dispatch, hl]
    | err s m =>
      have := login_error_status st.usersDb.users uname pw now s m hl
      simp only [dispatch, hl]
      omega
  | postExpense auth r =>
    cases ha : authenticateToken auth now with
    | error resp =>
      have := authenticateToken_error_status auth now resp ha
      simp only [dispatch, ha]
      omega
    | ok c =>
      cases hc : create st.expensesDb c.user_id r with
      | error errs => simp [dispatch, ha, hc]
      | ok p => simp [dispatch, ha, hc]
  | getExpenses auth =>
    cases ha : authenticateToken auth now with
    | error resp =>
      have := authenticateToken_error_status auth now resp ha
      simp only [dispatch, ha]
      omega
    | ok c => simp [dispatch, ha]
  | putExpense auth id r =>
    cases ha : authenticateToken auth now with
    | error resp =>
      have := authenticateToken_error_status auth now resp ha
      simp only [dispatch, ha]
      omega
    | ok c =>
      cases hv : validateEntry r with
      | nil => simp [dispatch, ha, hv]
      | cons x xs => simp [dispatch, ha, hv]
  | delExpense auth id =>
    cases ha : authenticateToken auth now with
    | error resp =>
      have := authenticateToken_error_status auth now resp ha
      simp only [dispatch, ha]
      omega
    | ok c => simp [dispatch, ha]
  | getSummary auth =>
    cases ha : authenticateToken auth now with
    | error resp =>
      have := authenticateToken_error_status auth now resp ha
      simp only [dispatch, ha]
      omega
    | ok c => simp [dispatch, ha]

/-- **C7 (counterexample)**: the readiness middleware is registered before
every route, register and login included, so while the connection is not
established POST /register and POST /login also answer 503 — contradicting
the claim that they do not return 503. -/
theorem C7_counterexample :
    (handle ⟨false, ⟨[], 0⟩, ⟨[], 0⟩⟩ 0 (.register "alice" "pass1234")).1.status = 503 ∧
    (handle ⟨false, ⟨[], 0⟩, ⟨[], 0⟩⟩ 0 (.login "alice" "pass1234")).1.status = 503 :=
  ⟨rfl, rfl⟩

/-- **C7 (amended)**: while the persistence connection is not yet established,
every endpoint — register and login included — returns 503; the gate is
evaluated on each request, and once ready no endpoint returns 503. -/
theorem C7_ready_gate (users : UsersDB) (edb : ExpensesDB) (now : Nat) (req : Req) :
    (handle ⟨false, users, edb⟩ now req).1.status = 503 ∧
    (handle ⟨true, users, edb⟩ now req).1.status ≠ 503 := by
  refine ⟨rfl, ?_⟩
  simpa [handle] using dispatch_status_ne_503 ⟨true, users, edb⟩ now req

/-- **C4**: every issued token carries `exp` equal to issuance time plus one
hour (3600 s), and verifying it strictly more than one hour after issuance
fails (jsonwebtoken's expiry error, surfaced by the app as AuthError). -/
theorem C4_token_lifetime (secret : String) (uid : Nat) (uname : String) (now : Nat) :
    (signToken secret uid uname now).payload.exp = now + 3600 ∧
    ∀ later, now + 3600 < later →
      verifyToken secret (signToken secret uid uname now) later = .error "jwt expired" := by
  refine ⟨rfl, fun later h => ?_⟩
  simp [verifyToken, signToken, Nat.le_of_lt h]

/-- Witness for C4 at a concrete issuance time and verification time. -/
theorem C4_witness :
    1000 + 3600 < 4601 ∧
    verifyToken JWT_SECRET (signToken JWT_SECRET 1 "alice" 1000) 4601 = .error "jwt expired" :=
  ⟨by norm_num, (C4_token_lifetime JWT_SECRET 1 "alice" 1000).2 4601 (by norm_num)⟩

/-- A found user's username matches the lookup key. -/
lemma findOneUser_some_username (users : List User) (uname : String) (u : User)
    (h : findOneUser users uname = some u) : u.username = uname := by
  have := List.find?_some h
  simpa using this

/-- A found user is a member of the collection. -/
lemma findOneUser_some_mem (users : List User) (uname : String) (u : User)
    (h : findOneUser users uname = some u) : u ∈ users :=
  List.mem_of_find?_eq_some h

/-- **C3**: for a registered user, login with the correct password yields a
token that verifies (under the same process-wide secret, at the login time)
to an identity carrying that user's id and username; login with any wrong
password yields the 401 AuthError and no token. -/
theorem C3_login_roundtrip (users : List User) (uname pw : String) (u : User) (now : Nat)
    (hn : uname ≠ "") (hp : pw ≠ "") (hu : findOneUser users uname = some u) :
    (bcryptCompare pw u.password = true →
      ∃ t, login users uname pw now = .ok t ∧
        ∃ c, verifyToken JWT_SECRET t now = .ok c ∧
          c.user_id = u._id ∧ c.username = u.username) ∧
    (bcryptCompare pw u.password = false →
      login users uname pw now = .err 401 "Invalid password" ∧
      ∀ t, login users uname pw now ≠ .ok t) := by
  have hval : ¬(uname = "" ∨ pw = "") := by
    rintro (h | h) <;> [exact hn h; exact hp h]
  constructor
  · intro hc
    refine ⟨signToken JWT_SECRET u._id uname now, ?_, ?_⟩
    · simp [login, hval, hu, hc]
    · refine ⟨⟨u._id, uname, now, now + 3600⟩, ?_, rfl, ?_⟩
      · simp [verifyToken, signToken]
      · exact (findOneUser_some_username users uname u hu).symm
  · intro hc
    have hl : login users uname pw now = .err 401 "Invalid password" := by
      simp [login, hval, hu, hc]
    exact ⟨hl, fun t h => by rw [hl] at h; cases h⟩

/-- Witness for C3: the registered user `alice` with password `pass1234`,
and the wrong password `wrong`. -/
theorem C3_witness :
    (bcryptCompare "pass1234" (bcryptHash "pass1234") = true →
      ∃ t, login [⟨1, "alice", bcryptHash "pass1234"⟩] "alice" "pass1234" 0 = .ok t ∧
        ∃ c, verifyToken JWT_SECRET t 0 = .ok c ∧
          c.user_id = 1 ∧ c.username = "alice") ∧
    (bcryptCompare "pass1234" (bcryptHash "pass1234") = false →
      login [⟨1, "alice", bcryptHash "pass1234"⟩] "alice" "pass1234" 0 = .err 401 "Invalid password" ∧
      ∀ t, login [⟨1, "alice", bcryptHash "pass1234"⟩] "alice" "pass1234" 0 ≠ .ok t) :=
  C3_login_roundtrip [⟨1, "alice", bcryptHash "pass1234"⟩] "alice" "pass1234"
    ⟨1, "alice", bcryptHash "pass1234"⟩ 0 (by decide) (by decide) (by rfl)

/-- **C8**: with non-empty credentials, login answers 401 "User not found"
exactly when no user carries the requested username, and 401
"Invalid password" exactly when the lookup finds a user whose stored hash the
password fails to match; the two messages are distinct. -/
theorem C8_login_errors (users : List User) (uname pw : String) (now : Nat)
    (hn : uname ≠ "") (hp : pw ≠ "") :
    (login users uname pw now = .err 401 "User not found" ↔
      ∀ u ∈ users, u.username ≠ uname) ∧
    (login users uname pw now = .err 401 "Invalid password" ↔
      ∃ u, findOneUser users uname = some u ∧ bcryptCompare pw u.password = false) ∧
    ("User not found" : String) ≠ "Invalid password" := by
  have hval : ¬(uname = "" ∨ pw = "") := by
    rintro (h | h) <;> [exact hn h; exact hp h]
  refine ⟨?_, ?_, by decide⟩
  · cases hf : findOneUser users uname with
    | none =>
      have hl : login users uname pw now = .err 401 "User not found" := by
        simp [login, hval, hf]
      rw [hl]
      constructor
      · intro _ u hu
        have := List.find?_eq_none.mp hf u hu
        simpa using this
      · intro _
        rfl
    | some u =>
      have hmem := findOneUser_some_mem users uname u hf
      have huser := findOneUser_some_username users uname u hf
      constructor
      · intro h
        by_cases hc : bcryptCompare pw u.password
        · have hl : login users uname pw now = .ok (signToken JWT_SECRET u._id uname now) := by
            simp [login, hval, hf, hc]
          rw [hl] at h
          cases h
        · have hl : login users uname pw now = .err 401 "Invalid password" := by
            simp [login, hval, hf, hc]
          rw [hl] at h
          exact absurd h (by decide)
      · intro h
        exact absurd huser (h u hmem)
  · cases hf : findOneUser users uname with
    | none =>
      have hl : login users uname pw now = .err 401 "User not found" := by
        simp [login, hval, hf]
      rw [hl]
      constructor
      · intro h
        exact absurd h (by decide)
      · rintro ⟨u, hu, -⟩
        cases hu
    | some u =>
      by_cases hc : bcryptCompare pw u.password
      · have hl : login users uname pw now = .ok (signToken JWT_SECRET u._id uname now) := by
          simp [login, hval, hf, hc]
        rw [hl]
        constructor
        · intro h
          cases h
        · rintro ⟨u', hu', hc'⟩
          cases hu'
          rw [hc] at hc'
          cases hc'
      · have hl : login users uname pw now = .err 401 "Invalid password" := by
          simp [login, hval, hf, hc]
        rw [hl]
        exact ⟨fun _ => ⟨u, rfl, by simpa using hc⟩, fun _ => rfl⟩

/-- Witness for C8: one registered user `alice`; the lookup key `bob` is
absent, so the "User not found" side of the characterisation bites. -/
theorem C8_witness :
    (login [⟨1, "alice", bcryptHash "pw1"⟩] "bob" "x" 0 = .err 401 "User not found" ↔
      ∀ u ∈ [(⟨1, "alice", bcryptHash "pw1"⟩ : User)], u.username ≠ "bob") ∧
    (login [⟨1, "alice", bcryptHash "pw1"⟩] "bob" "x" 0 = .err 401 "Invalid password" ↔
      ∃ u, findOneUser [⟨1, "alice", bcryptHash "pw1"⟩] "bob" = some u ∧
        bcryptCompare "x" u.password = false) ∧
    ("User not found" : String) ≠ "Invalid password" :=
  C8_login_errors [⟨1, "alice", bcryptHash "pw1"⟩] "bob" "x" 0 (by decide) (by decide)

/-- `updateOne` with a filter no document satisfies modifies nothing and
reports 0. -/
lemma updateOne_no_match (entries : List Entry) (id owner : Nat) (r : EntryReq)
    (h : ∀ e ∈ entries, ¬(e._id = id ∧ e.user_id = owner)) :
    updateOne entries id owner r = (entries, 0) := by
  induction entries with
  | nil => rfl
  | cons e rest ih =>
    have he := h e (List.mem_cons_self e rest)
    have hrest : ∀ e' ∈ rest, ¬(e'._id = id ∧ e'.user_id = owner) :=
      fun e' hm => h e' (List.mem_cons_of_mem e hm)
    simp [updateOne, he, ih hrest]

/-- `deleteOne` with a filter no document satisfies removes nothing and
reports 0. -/
lemma deleteOne_no_match (entries : List Entry) (id owner : Nat)
    (h : ∀ e ∈ entries, ¬(e._id = id ∧ e.user_id = owner)) :
    deleteOne entries id owner = (entries, 0) := by
  induction entries with
  | nil => rfl
  | cons e rest ih =>
    have he := h e (List.mem_cons_self e rest)
    have hrest : ∀ e' ∈ rest, ¬(e'._id = id ∧ e'.user_id = owner) :=
      fun e' hm => h e' (List.mem_cons_of_mem e hm)
    simp [deleteOne, he, ih hrest]

/-- **C1**: with entry ids unique (MongoDB `_id` uniqueness) and owners A ≠ B,
A's entry never appears in any admissible result of B's list, and B's update
and delete against A's entry id leave the collection unchanged and report
count 0: every read and mutation filters on the entry id (where applicable)
and on the authenticated owner's id. -/
theorem C1_owner_isolation (entries : List Entry) (A B : Nat) (eA : Entry) (r : EntryReq)
    (hAB : A ≠ B) (hmem : eA ∈ entries) (hown : eA.user_id = A)
    (huniq : ∀ e' ∈ entries, e'._id = eA._id → e' = eA) :
    (∀ out, IsListResult entries B out → eA ∉ out) ∧
    updateOne entries eA._id B r = (entries, 0) ∧
    deleteOne entries eA._id B = (entries, 0) := by
  have hno : ∀ e' ∈ entries, ¬(e'._id = eA._id ∧ e'.user_id = B) := by
    rintro e' hm ⟨h1, h2⟩
    have heq := huniq e' hm h1
    subst heq
    rw [hown] at h2
    exact hAB h2
  refine ⟨?_, updateOne_no_match entries eA._id B r hno, deleteOne_no_match entries eA._id B hno⟩
  rintro out ⟨hperm, -⟩ hout
  have hfil : eA ∈ findExpenses entries B := hperm.mem_iff.mp hout
  have : eA.user_id = B := by
    have := (List.mem_filter.mp hfil).2
    simpa using this
  rw [hown] at this
  exact hAB this

/-- Witness for C1: owner 10 owns entry 1; owner 11 can neither see it nor
touch it. -/
theorem C1_witness :
    (∀ out, IsListResult [⟨1, 10, "expense", JVal.num 5, "x", "2025-01-05"⟩] 11 out →
      (⟨1, 10, "expense", JVal.num 5, "x", "2025-01-05"⟩ : Entry) ∉ out) ∧
    updateOne [⟨1, 10, "expense", JVal.num 5, "x", "2025-01-05"⟩] 1 11
        ⟨"income", JVal.num 9, "y", "2025-02-06"⟩ =
      ([⟨1, 10, "expense", JVal.num 5, "x", "2025-01-05"⟩], 0) ∧
    deleteOne [⟨1, 10, "expense", JVal.num 5, "x", "2025-01-05"⟩] 1 11 =
      ([⟨1, 10, "expense", JVal.num 5, "x", "2025-01-05"⟩], 0) :=
  C1_owner_isolation [⟨1, 10, "expense", JVal.num 5, "x", "2025-01-05"⟩] 10 11
    ⟨1, 10, "expense", JVal.num 5, "x", "2025-01-05"⟩
    ⟨"income", JVal.num 9, "y", "2025-02-06"⟩
    (by decide) (by decide) rfl (by decide)

/-- `updateOne` against the first matching document whose stored fields
already equal the `$set` values reports `modifiedCount = 0` and changes
nothing. -/
lemma updateOne_noop (entries : List Entry) (e : Entry) (owner : Nat) (r : EntryReq)
    (hmem : e ∈ entries) (hown : e.user_id = owner) (heq : fieldsEq e r = true)
    (huniq : ∀ e' ∈ entries, e'._id = e._id → e' = e) :
    updateOne entries e._id owner r = (entries, 0) := by
  induction entries with
  | nil => cases hmem
  | cons x rest ih =>
    by_cases hx : x._id = e._id ∧ x.user_id = owner
    · have hxe : x = e := huniq x (List.mem_cons_self x rest) hx.1
      subst hxe
      simp [updateOne, hx, heq]
    · have hex : e ≠ x := by
        intro h
        exact hx (by rw [h] at hown ⊢; exact ⟨rfl, hown⟩)
      have hmem' : e ∈ rest := by
        cases List.mem_cons.mp hmem with
        | inl h => exact absurd h hex
        | inr h => exact h
      have huniq' : ∀ e' ∈ rest, e'._id = e._id → e' = e :=
        fun e' hm => huniq e' (List.mem_cons_of_mem x hm)
      simp [updateOne, hx, ih hmem' huniq']

/-- **C10**: with entry ids unique, an update of an owned entry whose supplied
fields equal the stored ones answers `{updated: 0}` — the count reflects
modified documents, not matched ones — which is the same count an update
against an id matching no document of that owner produces. -/
theorem C10_noop_update (entries : List Entry) (e : Entry) (owner : Nat) (r : EntryReq)
    (hmem : e ∈ entries) (hown : e.user_id = owner) (heq : fieldsEq e r = true)
    (huniq : ∀ e' ∈ entries, e'._id = e._id → e' = e) :
    (updateOne entries e._id owner r).2 = 0 ∧
    ∀ id', (∀ e' ∈ entries, ¬(e'._id = id' ∧ e'.user_id = owner)) →
      (updateOne entries id' owner r).2 = 0 := by
  constructor
  · rw [updateOne_noop entries e owner r hmem hown heq huniq]
  · intro id' h
    rw [updateOne_no_match entries id' owner r h]

/-- Witness for C10: updating entry 1 with its stored values answers 0, as
does updating the absent id 2. -/
theorem C10_witness :
    (updateOne [⟨1, 10, "expense", JVal.num 5, "x", "2025-01-05"⟩] 1 10
      ⟨"expense", JVal.num 5, "x", "2025-01-05"⟩).2 = 0 ∧
    ∀ id', (∀ e' ∈ [(⟨1, 10, "expense", JVal.num 5, "x", "2025-01-05"⟩ : Entry)],
        ¬(e'._id = id' ∧ e'.user_id = 10)) →
      (updateOne [⟨1, 10, "expense", JVal.num 5, "x", "2025-01-05"⟩] id' 10
        ⟨"expense", JVal.num 5, "x", "2025-01-05"⟩).2 = 0 :=
  C10_noop_update [⟨1, 10, "expense", JVal.num 5, "x", "2025-01-05"⟩]
    ⟨1, 10, "expense", JVal.num 5, "x", "2025-01-05"⟩ 10
    ⟨"expense", JVal.num 5, "x", "2025-01-05"⟩
    (by decide) rfl (by decide) (by decide)

/-- **C6 (counterexample)**: on two entries with equal dates, both insertion
order and its reverse are admissible results of the sort, and they differ —
the code does not guarantee a stable insertion-consistent tie-break, so
repeated calls need not yield the identical sequence. -/
theorem C6_counterexample :
    IsListResult [c6e1, c6e2] 5 [c6e1, c6e2] ∧
    IsListResult [c6e1, c6e2] 5 [c6e2, c6e1] ∧
    ([c6e1, c6e2] : List Entry) ≠ [c6e2, c6e1] := by
  refine ⟨⟨?_, ?_⟩, ⟨?_, ?_⟩, by decide⟩
  · exact List.Perm.refl _
  · simp [List.chain'_cons, c6e1, c6e2]
  · show List.Perm [c6e2, c6e1] (findExpenses [c6e1, c6e2] 5)
    have : findExpenses [c6e1, c6e2] 5 = [c6e1, c6e2] := by decide
    rw [this]
    exact List.Perm.swap c6e1 c6e2 []
  · simp [List.chain'_cons, c6e1, c6e2]

/-- **C6 (amended)**: every admissible result of list contains exactly the
owner's entries, in date-descending order; an owner with no entries gets the
empty sequence, never an error.  The order among entries with equal dates is
not guaranteed. -/
theorem C6_list_contract (entries : List Entry) (owner : Nat) (out : List Entry)
    (h : IsListResult entries owner out) :
    (∀ e, e ∈ out ↔ e ∈ entries ∧ e.user_id = owner) ∧
    out.Chain' (fun a b => b.date ≤ a.date) ∧
    ((∀ e ∈ entries, e.user_id ≠ owner) → out = []) := by
  obtain ⟨hperm, hchain⟩ := h
  refine ⟨?_, hchain, ?_⟩
  · intro e
    rw [hperm.mem_iff]
    simp [findExpenses, List.mem_filter]
  · intro hnone
    have hnil : findExpenses entries owner = [] := by
      rw [findExpenses, List.filter_eq_nil_iff]
      intro e he
      simpa using hnone e he
    rw [hnil] at hperm
    exact hperm.eq_nil

/-- Witness for C6 at a one-entry collection, whose only admissible result is
the entry itself. -/
theorem C6_witness :
    (∀ e, e ∈ [c6e1] ↔ e ∈ [c6e1] ∧ e.user_id = 5) ∧
    List.Chain' (fun a b : Entry => b.date ≤ a.date) [c6e1] ∧
    ((∀ e ∈ [c6e1], e.user_id ≠ 5) → [c6e1] = ([] : List Entry)) :=
  C6_list_contract [c6e1] 5 [c6e1]
    ⟨by
      have : findExpenses [c6e1] 5 = [c6e1] := by decide
      rw [this], by simp⟩

/-- Splitting a `$cond`-style sum: summing `if type = ty then f e else 0`
over a list equals summing `f` over the sublist of that type. -/
lemma map_contrib_sum (L : List Entry) (ty : String) (f : Entry → ℚ) :
    (L.map (fun e => if e.type == ty then f e else 0)).sum =
    ((L.filter (fun e => e.type == ty)).map f).sum := by
  induction L with
  | nil => rfl
  | cons a l ih =>
    by_cases h : (a.type == ty) = true
    · have hf : (a :: l).filter (fun e => e.type == ty) =
          a :: l.filter (fun e => e.type == ty) := List.filter_cons_of_pos h
      rw [List.map_cons, List.sum_cons, if_pos h, hf, List.map_cons, List.sum_cons, ih]
    · have hf : (a :: l).filter (fun e => e.type == ty) =
          l.filter (fun e => e.type == ty) := List.filter_cons_of_neg h
      rw [List.map_cons, List.sum_cons, if_neg h, hf, zero_add, ih]

/-- **C2**: every bucket of summarize carries as `total_income` the sum of
the (numeric) amounts of the owner's income entries whose date starts with
the bucket's 7-character period — symmetrically for `total_expense` — with an
empty filter summing to 0 when a type is absent; every owned entry's period
has a bucket, each bucket's period comes from an owned entry, and an owner
with no entries gets the empty sequence.  No cross-bucket order is stated. -/
theorem C2_monthly_summary (entries : List Entry) (owner : Nat)
    (hnum : ∀ e ∈ entries, ∃ q : ℚ, e.amount = JVal.num q) :
    (∀ b ∈ summarize entries owner,
      b.total_income =
        (((findExpenses entries owner).filter
            (fun e => e.type == "income" && monthKey e == b._id)).map
          (fun e => numAmount e.amount)).sum ∧
      b.total_expense =
        (((findExpenses entries owner).filter
            (fun e => e.type == "expense" && monthKey e == b._id)).map
          (fun e => numAmount e.amount)).sum ∧
      ∃ e ∈ entries, e.user_id = owner ∧ monthKey e = b._id) ∧
    (∀ e ∈ entries, e.user_id = owner →
      monthKey e ∈ (summarize entries owner).map Bucket._id) ∧
    ((∀ e ∈ entries, e.user_id ≠ owner) → summarize entries owner = []) := by
  refine ⟨?_, ?_, ?_⟩
  · intro b hb
    rw [summarize] at hb
    obtain ⟨k, hk, rfl⟩ := List.mem_map.mp hb
    refine ⟨?_, ?_, ?_⟩
    · show (((findExpenses entries owner).filter
          (fun e => monthKey e == k)).map incomeContrib).sum =
        (((findExpenses entries owner).filter
            (fun e => e.type == "income" && monthKey e == k)).map
          (fun e => numAmount e.amount)).sum
      have h1 : (((findExpenses entries owner).filter
          (fun e => monthKey e == k)).map incomeContrib) =
          (((findExpenses entries owner).filter (fun e => monthKey e == k)).map
            (fun e => if e.type == "income" then numAmount e.amount else 0)) := rfl
      rw [h1, map_contrib_sum, List.filter_filter]
    · show (((findExpenses entries owner).filter
          (fun e => monthKey e == k)).map expenseContrib).sum =
        (((findExpenses entries owner).filter
            (fun e => e.type == "expense" && monthKey e == k)).map
          (fun e => numAmount e.amount)).sum
      have h1 : (((findExpenses entries owner).filter
          (fun e => monthKey e == k)).map expenseContrib) =
          (((findExpenses entries owner).filter (fun e => monthKey e == k)).map
            (fun e => if e.type == "expense" then numAmount e.amount else 0)) := rfl
      rw [h1, map_contrib_sum, List.filter_filter]
    · have hk' : k ∈ (findExpenses entries owner).map monthKey := List.mem_dedup.mp hk
      obtain ⟨e, he, hke⟩ := List.mem_map.mp hk'
      obtain ⟨hee, hu⟩ := List.mem_filter.mp he
      exact ⟨e, hee, by simpa using hu, by simpa [mkBucket] using hke⟩
  · intro e he hu
    have hm : e ∈ findExpenses entries owner := List.mem_filter.mpr ⟨he, by simp [hu]⟩
    have h1 : (summarize entries owner).map Bucket._id =
        keysOf (findExpenses entries owner) := by
      simp only [summarize, List.map_map]
      have h2 : (Bucket._id ∘ mkBucket (findExpenses entries owner)) = fun x => x :=
        funext (fun _ => rfl)
      rw [h2, List.map_id']
    rw [h1]
    exact List.mem_dedup.mpr (List.mem_map_of_mem monthKey hm)
  · intro hnone
    have hnil : findExpenses entries owner = [] := by
      rw [findExpenses, List.filter_eq_nil_iff]
      intro e he
      simpa using hnone e he
    simp [summarize, hnil, keysOf]

/-- Witness for C2 on a one-entry collection with a numeric amount. -/
theorem C2_witness :
    (∀ e ∈ [c2e], ∃ q : ℚ, e.amount = JVal.num q) ∧
    ((∀ b ∈ summarize [c2e] 1,
      b.total_income =
        (((findExpenses [c2e] 1).filter
            (fun e => e.type == "income" && monthKey e == b._id)).map
          (fun e => numAmount e.amount)).sum ∧
      b.total_expense =
        (((findExpenses [c2e] 1).filter
            (fun e => e.type == "expense" && monthKey e == b._id)).map
          (fun e => numAmount e.amount)).sum ∧
      ∃ e ∈ [c2e], e.user_id = 1 ∧ monthKey e = b._id) ∧
    (∀ e ∈ [c2e], e.user_id = 1 → monthKey e ∈ (summarize [c2e] 1).map Bucket._id) ∧
    ((∀ e ∈ [c2e], e.user_id ≠ 1) → summarize [c2e] 1 = [])) :=
  ⟨fun e he => by
    rw [List.mem_singleton] at he
    subst he
    exact ⟨10, rfl⟩,
   C2_monthly_summary [c2e] 1 (fun e he => by
    rw [List.mem_singleton] at he
    subst he
    exact ⟨10, rfl⟩)⟩

/-- The validator chain passes exactly when all four checks pass. -/
lemma validateEntry_eq_nil (r : EntryReq) :
    validateEntry r = [] ↔
      (isInTypes r.type = true ∧ isFloatGt0 r.amount = true ∧
       isISO8601 r.date = true ∧ r.description ≠ "") := by
  unfold validateEntry
  by_cases h1 : isInTypes r.type = true <;> by_cases h2 : isFloatGt0 r.amount = true <;>
    by_cases h3 : isISO8601 r.date = true <;> by_cases h4 : r.description = "" <;>
    simp [h1, h2, h3, h4]

/-- `isIn(['expense', 'income'])` as a predicate. -/
lemma isInTypes_iff (t : String) :
    isInTypes t = true ↔ (t = "expense" ∨ t = "income") := by
  simp [isInTypes]

/-- `isFloat({gt: 0})` as a predicate: a positive number, or a string parsing
as a positive float. -/
lemma isFloatGt0_iff (a : JVal) :
    isFloatGt0 a = true ↔
      ((∃ q : ℚ, a = .num q ∧ 0 < q) ∨
       (∃ s p, a = .str s ∧ parseFloat s = some p ∧ 0 < floatVal p)) := by
  cases a with
  | num q => simp [isFloatGt0]
  | str s =>
    cases hp : parseFloat s with
    | none => simp [isFloatGt0, hp]
    | some p =>
      have hl : isFloatGt0 (JVal.str s) = decide (0 < p.1) := by
        simp only [isFloatGt0, hp]
      rw [hl, decide_eq_true_eq]
      constructor
      · intro h
        exact Or.inr ⟨s, p, rfl, hp, (floatVal_pos p).mpr h⟩
      · rintro (⟨q, hq, -⟩ | ⟨s', p', hs, hps, h⟩)
        · cases hq
        · cases hs
          rw [hp] at hps
          cases hps
          exact (floatVal_pos p).mp h

/-- **C5 (counterexample)**: create accepts the string amount "12.5" (not a
number greater than 0) and the day-free date 2025-02-31 (not a well-formed
calendar date), so the claimed "ValidationError iff" fails in both cases. -/
theorem C5_counterexample :
    create ⟨[], 0⟩ 1 ⟨"expense", .str "12.5", "lunch", "2025-01-05"⟩ =
      .ok (⟨[⟨0, 1, "expense", .str "12.5", "lunch", "2025-01-05"⟩], 1⟩, 0) ∧
    ¬ claimValidEntry ⟨"expense", .str "12.5", "lunch", "2025-01-05"⟩ ∧
    create ⟨[], 0⟩ 1 ⟨"expense", .num 5, "rent", "2025-02-31"⟩ =
      .ok (⟨[⟨0, 1, "expense", .num 5, "rent", "2025-02-31"⟩], 1⟩, 0) ∧
    ¬ claimValidEntry ⟨"expense", .num 5, "rent", "2025-02-31"⟩ := by
  refine ⟨?_, ?_, ?_, ?_⟩
  · have h : validateEntry ⟨"expense", .str "12.5", "lunch", "2025-01-05"⟩ = [] := by decide
    simp [create, h]
  · rintro ⟨-, ⟨q, hq, -⟩, -, -⟩
    cases hq
  · have h : validateEntry ⟨"expense", .num 5, "rent", "2025-02-31"⟩ = [] := by decide
    simp [create, h]
  · rintro ⟨-, -, hd, -⟩
    exact absurd hd (by decide)

/-- **C5 (amended)**: create returns ValidationError exactly when the request
fails the code's validity rule (`amendedValidEntry`); otherwise it persists
the entry bound to the owner, appended with a fresh id, and returns that
entry's identifier. -/
theorem C5_create_contract (db : ExpensesDB) (owner : Nat) (r : EntryReq) :
    ((∃ errs, create db owner r = .error errs) ↔ ¬ amendedValidEntry r) ∧
    (amendedValidEntry r →
      create db owner r =
        .ok (⟨db.entries ++ [⟨db.nextId, owner, r.type, r.amount, r.description, r.date⟩],
              db.nextId + 1⟩, db.nextId)) := by
  have hv : validateEntry r = [] ↔ amendedValidEntry r := by
    rw [validateEntry_eq_nil]
    simp [amendedValidEntry, isInTypes_iff, isFloatGt0_iff]
  constructor
  · constructor
    · rintro ⟨errs, he⟩ hval
      have hnil := hv.mpr hval
      simp [create, hnil] at he
    · intro hval
      cases hve : validateEntry r with
      | nil => exact absurd (hv.mp hve) hval
      | cons x xs => exact ⟨x :: xs, by simp [create, hve]⟩
  · intro hval
    have hnil := hv.mpr hval
    simp [create, hnil]

/-- Witness for the implication part of C5's amended contract: a valid
request is persisted and its fresh id returned. -/
theorem C5_witness :
    amendedValidEntry ⟨"expense", .num 5, "rent", "2025-02-03"⟩ ∧
    create ⟨[], 4⟩ 1 ⟨"expense", .num 5, "rent", "2025-02-03"⟩ =
      .ok (⟨[⟨4, 1, "expense", .num 5, "rent", "2025-02-03"⟩], 5⟩, 4) :=
  ⟨⟨Or.inl rfl, Or.inl ⟨5, rfl, by norm_num⟩, by decide, by decide⟩,
   (C5_create_contract ⟨[], 4⟩ 1 ⟨"expense", .num 5, "rent", "2025-02-03"⟩).2
     ⟨Or.inl rfl, Or.inl ⟨5, rfl, by norm_num⟩, by decide, by decide⟩⟩

/-- **C9**: create accepts the amount supplied as the numeric string "12.5",
stores it as a string, and summarize's bucket for that month then reports
`total_income = 0`, omitting the accepted entry's amount from the sum. -/
theorem C9_string_amount :
    create ⟨[], 0⟩ 7 ⟨"income", .str "12.5", "salary", "2025-01-05"⟩ =
      .ok (⟨[⟨0, 7, "income", .str "12.5", "salary", "2025-01-05"⟩], 1⟩, 0) ∧
    summarize [⟨0, 7, "income", .str "12.5", "salary", "2025-01-05"⟩] 7 =
      [⟨"2025-01", 0, 0⟩] := by
  constructor
  · have h : validateEntry ⟨"income", .str "12.5", "salary", "2025-01-05"⟩ = [] := by decide
    simp [create, h]
  · have hk : keysOf [(⟨0, 7, "income", .str "12.5", "salary", "2025-01-05"⟩ : Entry)] =
        ["2025-01"] := rfl
    have hf : findExpenses [(⟨0, 7, "income", .str "12.5", "salary", "2025-01-05"⟩ : Entry)] 7 =
        [⟨0, 7, "income", .str "12.5", "salary", "2025-01-05"⟩] := rfl
    simp only [summarize, hf, hk, List.map_cons, List.map_nil, List.cons.injEq, and_true]
    rw [mkBucket]
    have hfil : ([(⟨0, 7, "income", .str "12.5", "salary", "2025-01-05"⟩ : Entry)].filter
        (fun e => monthKey e == "2025-01")) =
        [⟨0, 7, "income", .str "12.5", "salary", "2025-01-05"⟩] := rfl
    rw [hfil]
    show Bucket.mk _ _ _ = _
    have hi : incomeContrib ⟨0, 7, "income", .str "12.5", "salary", "2025-01-05"⟩ = 0 := rfl
    have he : expenseContrib ⟨0, 7, "income", .str "12.5", "salary", "2025-01-05"⟩ = 0 := by
      rw [expenseContrib]
      simp
    simp [hi, he]
